import Mathlib

/-!
Shallow embedding of the contacts-management backend
(`app/utils/auth.py`, `app/utils/cache.py`, `app/crud/contact.py`,
`app/crud/user.py`) together with theorems checking the specification's
claims against the embedded code.

Conventions of the embedding:
* Python `datetime.date` values become the `PyDate` structure; comparison is
  lexicographic on (year, month, day) exactly as in CPython, and
  `timedelta(days = n)` addition is `n`-fold day successor.
* JWTs (python-jose, HS256) are modelled as a claims list paired with the
  signing key; signature verification succeeds exactly when the keys are
  equal, and the `exp` claim is validated against the supplied clock.
* SQLAlchemy tables are lists of rows; `query(...).filter(...).first()` is
  `List.find?`, `.all()` is `List.filter`, `offset/limit` are `drop/take`.
* `HTTPException(status_code, detail)` raised by a repository function is the
  `Except.error` branch of the `Res` monad.
* bcrypt hashing/verification (passlib) is an external library and enters the
  embedding as function parameters `bhash` / `vrfy`.
* The Redis client is a `RedisState`: an association list of live entries
  (key, absolute expiry, value) plus per-primitive failure flags that model a
  failing cache store; `json.dumps`/`json.loads` are modelled by the
  constructor `CacheVal.ser` (serialization of a dict is injective and
  round-trips) with `CacheVal.malformed` for payloads `json.loads` rejects.
-/

namespace HwApp

/-! ### Calendar dates (`datetime.date`) -/

/-- A Python `datetime.date`: proleptic Gregorian year, month, day. -/
structure PyDate where
  year : Nat
  month : Nat
  day : Nat
deriving DecidableEq, Repr

/-- Gregorian leap-year rule used by `datetime`. -/
def isLeap (y : Nat) : Bool :=
  decide (y % 4 = 0) && (decide (y % 100 ≠ 0) || decide (y % 400 = 0))

/-- Number of days in a month of a given year. -/
def daysInMonth (y m : Nat) : Nat :=
  if m = 2 then (if isLeap y then 29 else 28)
  else if m = 4 ∨ m = 6 ∨ m = 9 ∨ m = 11 then 30
  else 31

/-- Whether `datetime.date(y, m, d)` constructs without raising `ValueError`
(year-range checks aside, which are irrelevant for current-year values). -/
def isValidDate (y m d : Nat) : Bool :=
  decide (1 ≤ m) && decide (m ≤ 12) && decide (1 ≤ d) && decide (d ≤ daysInMonth y m)

/-- Python `date` ordering: lexicographic on (year, month, day). -/
def dateLe (a b : PyDate) : Bool :=
  decide (a.year < b.year) ||
    (decide (a.year = b.year) &&
      (decide (a.month < b.month) ||
        (decide (a.month = b.month) && decide (a.day ≤ b.day))))

/-- The calendar day after `d` (rolls months and years). -/
def nextDay (d : PyDate) : PyDate :=
  if d.day < daysInMonth d.year d.month then ⟨d.year, d.month, d.day + 1⟩
  else if d.month < 12 then ⟨d.year, d.month + 1, 1⟩
  else ⟨d.year + 1, 1, 1⟩

/-- `d + timedelta(days = n)` as an `n`-fold day successor. -/
def addDays : PyDate → Nat → PyDate
  | d, 0 => d
  | d, n + 1 => addDays (nextDay d) n

/-! ### JWT model (`app/utils/auth.py`) -/

/-- A scalar JSON claim value as used by the application's token payloads. -/
inductive ClaimVal where
  | vInt (n : Int)
  | vStr (s : String)
deriving DecidableEq, Repr

/-- A JWT payload: insertion-ordered dictionary of claims. -/
abbrev Claims := List (String × ClaimVal)

/-- `payload.get(k)`: first binding of `k`, if any. -/
def getClaim (cs : Claims) (k : String) : Option ClaimVal :=
  (cs.find? (fun p => decide (p.1 = k))).map (fun p => p.2)

/-- `payload.update({k: v})`: replace the binding of `k` in place, or append. -/
def setClaim : Claims → String → ClaimVal → Claims
  | [], k, v => [(k, v)]
  | (k', v') :: rest, k, v =>
      if k' = k then (k, v) :: rest else (k', v') :: setClaim rest k v

/-- Python truthiness of an optional claim value: `None`, `0` and `""` are
falsy, everything else truthy. -/
def truthy : Option ClaimVal → Bool
  | none => false
  | some (.vInt n) => decide (n ≠ 0)
  | some (.vStr s) => decide (s ≠ "")

/-- An HS256 JWT: the signature binds the payload to the signing key, so a
token is modelled as the payload plus the key it was signed with. -/
structure JwtToken where
  claims : Claims
  key : String
deriving DecidableEq, Repr

/-- The environment-driven signing-key configuration of `app/utils/auth.py`. -/
structure AuthConfig where
  SECRET_KEY : String
  REFRESH_SECRET_KEY : String
  RESET_SECRET_KEY : String
deriving DecidableEq, Repr

/-- The configuration with no environment overrides: `SECRET_KEY` defaults to
`'supersecretkey'` and both other keys default to `SECRET_KEY`. -/
def defaultAuthConfig : AuthConfig :=
  ⟨"supersecretkey", "supersecretkey", "supersecretkey"⟩

/-- `jose` `exp`-claim validation at clock `now`: an absent `exp` passes, an
integer `exp` passes iff not in the past, a non-integer `exp` is rejected. -/
def expOk (cs : Claims) (now : Int) : Bool :=
  match getClaim cs "exp" with
  | some (.vInt e) => decide (now ≤ e)
  | some (.vStr _) => false
  | none => true

/-- `_encode(data, key, expires_delta)`: copy the payload, set the absolute
expiry `now + delta` (default 30 minutes), sign with `key`. -/
def jwtEncode (data : Claims) (key : String) (expires_delta : Option Int) (now : Int) : JwtToken :=
  ⟨setClaim data "exp" (.vInt (now + expires_delta.getD 1800)), key⟩

/-- `_decode(token, key)`: payload if the signature verifies under `key` and
the `exp` claim is acceptable at `now`, otherwise `None`. -/
def jwtDecode (token : JwtToken) (key : String) (now : Int) : Option Claims :=
  if token.key = key && expOk token.claims now then some token.claims else none

/-- `create_access_token`: sign with `SECRET_KEY`, default lifetime 30 min. -/
def create_access_token (cfg : AuthConfig) (data : Claims)
    (expires_delta : Option Int) (now : Int) : JwtToken :=
  jwtEncode data cfg.SECRET_KEY (some (expires_delta.getD 1800)) now

/-- `decode_access_token`: decode under `SECRET_KEY`. -/
def decode_access_token (cfg : AuthConfig) (token : JwtToken) (now : Int) : Option Claims :=
  jwtDecode token cfg.SECRET_KEY now

/-- `create_refresh_token`: sign with `REFRESH_SECRET_KEY`, default 7 days. -/
def create_refresh_token (cfg : AuthConfig) (data : Claims)
    (expires_delta : Option Int) (now : Int) : JwtToken :=
  jwtEncode data cfg.REFRESH_SECRET_KEY (some (expires_delta.getD 604800)) now

/-- `decode_refresh_token`: decode under `REFRESH_SECRET_KEY`. -/
def decode_refresh_token (cfg : AuthConfig) (token : JwtToken) (now : Int) : Option Claims :=
  jwtDecode token cfg.REFRESH_SECRET_KEY now

/-- `create_reset_token(user_id)`: payload is exactly `{"user_id": user_id}`,
signed with `RESET_SECRET_KEY`, default lifetime 15 minutes. -/
def create_reset_token (cfg : AuthConfig) (user_id : Int)
    (expires_delta : Option Int) (now : Int) : JwtToken :=
  jwtEncode [("user_id", .vInt user_id)] cfg.RESET_SECRET_KEY
    (some (expires_delta.getD 900)) now

/-- `verify_reset_token`: decode under `RESET_SECRET_KEY` and return the
payload's `user_id` entry (whatever it is), else `None`. -/
def verify_reset_token (cfg : AuthConfig) (token : JwtToken) (now : Int) : Option ClaimVal :=
  match jwtDecode token cfg.RESET_SECRET_KEY now with
  | none => none
  | some payload => getClaim payload "user_id"

/-! ### HTTP-level failures -/

/-- An `HTTPException(status_code, detail)` raised by a repository function. -/
structure HError where
  code : Nat
  detail : String
deriving DecidableEq, Repr

/-- Result of a repository operation: either an `HTTPException` or a value. -/
abbrev Res (α : Type) := Except HError α

/-! ### ORM rows (`app/models`) and request schemas (`app/schemas`) -/

/-- A row of the `contacts` table. -/
structure Contact where
  id : Int
  first_name : String
  last_name : String
  email : String
  phone : String
  birthday : PyDate
  extra : Option String
  user_id : Int
deriving DecidableEq, Repr

/-- A row of the `users` table (column defaults: `is_active = True`,
`is_verified = False`, `role = "user"`). -/
structure User where
  id : Int
  username : String
  email : String
  hashed_password : String
  is_active : Bool
  is_verified : Bool
  avatar_url : Option String
  role : String
deriving DecidableEq, Repr

/-- `ContactCreate` / `ContactUpdate` payload (the schema also carries an
optional `user_id` field, which the repository ignores). -/
structure ContactData where
  first_name : String
  last_name : String
  email : String
  phone : String
  birthday : PyDate
  extra : Option String
  user_id : Option Int
deriving DecidableEq, Repr

/-- `UserCreate` registration payload. -/
structure UserCreate where
  username : String
  email : String
  password : String
deriving DecidableEq, Repr

/-! ### Contact repository (`app/crud/contact.py`) -/

/-- `_get_user_id(token)`: decode the access token and extract `user_id`.
A missing token, failed decode, or falsy `user_id` claim raises 401; a
non-numeric string `user_id` would make `int(...)` raise an unhandled
`ValueError`, surfacing as a 500. -/
def _get_user_id (cfg : AuthConfig) (now : Int) (token : Option JwtToken) : Res Int :=
  let payload : Option Claims :=
    match token with
    | none => none
    | some t => decode_access_token cfg t now
  match payload with
  | none => .error ⟨401, "Invalid or missing access token"⟩
  | some p =>
    match getClaim p "user_id" with
    | none => .error ⟨401, "Invalid or missing access token"⟩
    | some (.vInt n) =>
        if n = 0 then .error ⟨401, "Invalid or missing access token"⟩ else .ok n
    | some (.vStr s) =>
        if s = "" then .error ⟨401, "Invalid or missing access token"⟩
        else
          match s.toInt? with
          | some n => .ok n
          | none => .error ⟨500, "Internal Server Error"⟩

/-- Replace the first element satisfying `p` (the row the query mutated). -/
def replaceFirst {α : Type} (p : α → Bool) (new : α) : List α → List α
  | [] => []
  | a :: rest => if p a then new :: rest else a :: replaceFirst p new rest

/-- Remove the first element satisfying `p` (the row `db.delete` removed). -/
def removeFirst {α : Type} (p : α → Bool) : List α → List α
  | [] => []
  | a :: rest => if p a then rest else a :: removeFirst p rest

/-- `create_contact`: resolve the acting user, reject with 409 when any row of
the whole table already has the requested email (no owner scoping), otherwise
insert a row owned by the acting user (`newId` models the DB-assigned key). -/
def create_contact (cfg : AuthConfig) (now : Int) (db : List Contact)
    (contact : ContactData) (token : Option JwtToken) (newId : Int) :
    Res (List Contact × Contact) :=
  match _get_user_id cfg now token with
  | .error e => .error e
  | .ok user_id =>
    if (db.find? (fun c => decide (c.email = contact.email))).isSome then
      .error ⟨409, "Contact with this email already exists"⟩
    else
      let obj : Contact :=
        ⟨newId, contact.first_name, contact.last_name, contact.email,
          contact.phone, contact.birthday, contact.extra, user_id⟩
      .ok (db ++ [obj], obj)

/-- `get_contacts`: the acting user's rows with offset/limit pagination. -/
def get_contacts (cfg : AuthConfig) (now : Int) (db : List Contact)
    (skip limit : Nat) (token : Option JwtToken) : Res (List Contact) :=
  match _get_user_id cfg now token with
  | .error e => .error e
  | .ok user_id =>
      .ok (((db.filter (fun c => decide (c.user_id = user_id))).drop skip).take limit)

/-- `get_contact`: first row with the requested id owned by the acting user,
404 otherwise. -/
def get_contact (cfg : AuthConfig) (now : Int) (db : List Contact)
    (contact_id : Int) (token : Option JwtToken) : Res Contact :=
  match _get_user_id cfg now token with
  | .error e => .error e
  | .ok user_id =>
    match db.find? (fun c => decide (c.id = contact_id) && decide (c.user_id = user_id)) with
    | none => .error ⟨404, "Contact not found"⟩
    | some obj => .ok obj

/-- `update_contact`: look up as `get_contact` does, then overwrite the six
mutable fields of that row; `id` and `user_id` are not assigned. -/
def update_contact (cfg : AuthConfig) (now : Int) (db : List Contact)
    (contact_id : Int) (contact : ContactData) (token : Option JwtToken) :
    Res (List Contact × Contact) :=
  match _get_user_id cfg now token with
  | .error e => .error e
  | .ok user_id =>
    match db.find? (fun c => decide (c.id = contact_id) && decide (c.user_id = user_id)) with
    | none => .error ⟨404, "Contact not found"⟩
    | some obj =>
      let obj' : Contact :=
        { obj with
          first_name := contact.first_name
          last_name := contact.last_name
          email := contact.email
          phone := contact.phone
          birthday := contact.birthday
          extra := contact.extra }
      .ok (replaceFirst
            (fun c => decide (c.id = contact_id) && decide (c.user_id = user_id))
            obj' db, obj')

/-- `delete_contact`: look up as `get_contact` does, remove the row, return
`True`; absence raises 404 (never returns `False`). -/
def delete_contact (cfg : AuthConfig) (now : Int) (db : List Contact)
    (contact_id : Int) (token : Option JwtToken) : Res (List Contact × Bool) :=
  match _get_user_id cfg now token with
  | .error e => .error e
  | .ok user_id =>
    match db.find? (fun c => decide (c.id = contact_id) && decide (c.user_id = user_id)) with
    | none => .error ⟨404, "Contact not found"⟩
    | some _ =>
      .ok (removeFirst
            (fun c => decide (c.id = contact_id) && decide (c.user_id = user_id)) db, true)

/-- `p` occurs in `l` (case-significant list-of-chars infix test). -/
def charsHavePre : List Char → List Char → Bool
  | [], _ => true
  | _ :: _, [] => false
  | a :: as, b :: bs => a == b && charsHavePre as bs

/-- `p` occurs somewhere in `l`. -/
def charsContain (p : List Char) : List Char → Bool
  | [] => p.isEmpty
  | b :: bs => charsHavePre p (b :: bs) || charsContain p bs

/-- SQL `column ILIKE '%q%'`: case-insensitive substring containment. -/
def ilikeContains (hay q : String) : Bool :=
  charsContain q.toLower.data hay.toLower.data

/-- The OR of the four `ilike` filters of `search_contacts`. -/
def searchMatch (q : String) (c : Contact) : Bool :=
  ilikeContains c.first_name q || ilikeContains c.last_name q ||
    ilikeContains c.email q || ilikeContains c.phone q

/-- `search_contacts`: the acting user's rows whose first name, last name,
email or phone contains the query, case-insensitively. -/
def search_contacts (cfg : AuthConfig) (now : Int) (db : List Contact)
    (q : String) (token : Option JwtToken) : Res (List Contact) :=
  match _get_user_id cfg now token with
  | .error e => .error e
  | .ok user_id =>
      .ok (db.filter (fun c => decide (c.user_id = user_id) && searchMatch q c))

/-- `_is_upcoming(bday)` (closure inside `get_upcoming_birthdays`): rebuild
the birthday in the current year; if the constructor raises (Feb 29 in a
non-leap current year) fall back to March 1; then test membership of the
inclusive window `[today, today + 7 days]`. -/
def is_upcoming (today : PyDate) (bday : PyDate) : Bool :=
  let normalized : PyDate :=
    if isValidDate today.year bday.month bday.day
    then ⟨today.year, bday.month, bday.day⟩
    else ⟨today.year, 3, 1⟩
  dateLe today normalized && dateLe normalized (addDays today 7)

/-- `get_upcoming_birthdays`: fetch the acting user's rows, keep those whose
birthday is upcoming relative to `today`. -/
def get_upcoming_birthdays (cfg : AuthConfig) (now : Int) (db : List Contact)
    (today : PyDate) (token : Option JwtToken) : Res (List Contact) :=
  match _get_user_id cfg now token with
  | .error e => .error e
  | .ok user_id =>
      .ok ((db.filter (fun c => decide (c.user_id = user_id))).filter
            (fun c => is_upcoming today c.birthday))

/-! ### User repository (`app/crud/user.py`); `bhash` and `vrfy` stand for
passlib's bcrypt `hash` and `verify`. -/

/-- `create_user`: 409 on an existing email (checked first), then 409 on an
existing username, otherwise insert a row storing only `bhash(password)`. -/
def create_user (bhash : String → String) (db : List User) (newId : Int)
    (u : UserCreate) : Res (List User × User) :=
  if (db.find? (fun v => decide (v.email = u.email))).isSome then
    .error ⟨409, "Email already registered"⟩
  else if (db.find? (fun v => decide (v.username = u.username))).isSome then
    .error ⟨409, "Username already taken"⟩
  else
    let nu : User := ⟨newId, u.username, u.email, bhash u.password, true, false, none, "user"⟩
    .ok (db ++ [nu], nu)

/-- `authenticate_user`: look the username up; a missing user and a failed
password verification raise the one same 401. -/
def authenticate_user (vrfy : String → String → Bool) (db : List User)
    (username password : String) : Res User :=
  match db.find? (fun v => decide (v.username = username)) with
  | none => .error ⟨401, "Invalid credentials"⟩
  | some user =>
      if vrfy password user.hashed_password then .ok user
      else .error ⟨401, "Invalid credentials"⟩

/-! ### Redis cache (`app/utils/cache.py`) -/

/-- The cached projection of a user: a small JSON dictionary whose field set
the caller chooses at write time. -/
abbrev UserData := List (String × ClaimVal)

/-- A value stored under a cache key: either the serialization of a user
projection (`json.dumps` round-trips through `json.loads`), or a payload that
`json.loads` rejects. -/
inductive CacheVal where
  | ser (d : UserData)
  | malformed
deriving DecidableEq, Repr

/-- `redis.exceptions.RedisError`. -/
inductive RedisError where
  | err
deriving DecidableEq, Repr

/-- The Redis connection: live entries (key, absolute expiry, value) plus
flags making the next use of each primitive fail, modelling an unreachable or
failing cache store. -/
structure RedisState where
  entries : List (String × Nat × CacheVal)
  failGet : Bool
  failSet : Bool
  failDel : Bool
deriving DecidableEq, Repr

/-- The store after an entry is put under `k` with absolute expiry `expiry`,
replacing any previous entry for `k`. -/
def storePut (s : RedisState) (k : String) (expiry : Nat) (v : CacheVal) : RedisState :=
  { s with entries := (k, expiry, v) :: s.entries.filter (fun e => !(decide (e.1 = k))) }

/-- The store after the entry for `k` (if any) is removed. -/
def storeDrop (s : RedisState) (k : String) : RedisState :=
  { s with entries := s.entries.filter (fun e => !(decide (e.1 = k))) }

/-- `SETEX key ttl value` at clock `now`: store under `key` with absolute
expiry `now + ttl`, replacing any previous entry. -/
def rSetex (s : RedisState) (k : String) (ttl : Nat) (v : CacheVal) (now : Nat) :
    Except RedisError RedisState :=
  if s.failSet then .error .err
  else .ok (storePut s k (now + ttl) v)

/-- `GET key` at clock `now`: the stored value while it has not expired;
expired or absent keys read as `nil`. -/
def rGet (s : RedisState) (k : String) (now : Nat) :
    Except RedisError (Option CacheVal) :=
  if s.failGet then .error .err
  else .ok (match s.entries.find? (fun e => decide (e.1 = k)) with
    | some e => if now < e.2.1 then some e.2.2 else none
    | none => none)

/-- `DEL key`. -/
def rDel (s : RedisState) (k : String) : Except RedisError RedisState :=
  if s.failDel then .error .err
  else .ok (storeDrop s k)

/-- The cache key `f"user:{user_id}"`. -/
def userKey (user_id : Nat) : String := "user:" ++ Nat.repr user_id

/-- `cache_user(user_id, data, ttl_seconds)`: a bare `SETEX` of the
serialized projection — no exception handling, so a store failure
propagates. -/
def cache_user (s : RedisState) (user_id : Nat) (data : UserData)
    (ttl_seconds : Nat) (now : Nat) : Except RedisError RedisState :=
  rSetex s (userKey user_id) ttl_seconds (.ser data) now

/-- `get_cached_user(user_id)`: a bare `GET` (store failures propagate); an
absent value is a miss, and a payload `json.loads` rejects is also treated as
a miss. -/
def get_cached_user (s : RedisState) (user_id : Nat) (now : Nat) :
    Except RedisError (Option UserData) :=
  match rGet s (userKey user_id) now with
  | .error e => .error e
  | .ok none => .ok none
  | .ok (some (.ser d)) => .ok (some d)
  | .ok (some .malformed) => .ok none

/-- `delete_user_cache(user_id)`: `DEL` wrapped in
`try ... except RedisError: pass` — best-effort, never raises. -/
def delete_user_cache (s : RedisState) (user_id : Nat) : RedisState :=
  match rDel s (userKey user_id) with
  | .ok s' => s'
  | .error _ => s

/-- An operation interleaved between a cache write (or invalidation) and a
later read, for stating the until-conditions of cache-aside consistency. -/
inductive CacheOp where
  | write (uid : Nat) (d : UserData) (ttl : Nat) (t : Nat)
  | inval (uid : Nat)
deriving DecidableEq, Repr

/-- The user id an operation targets. -/
def opUid : CacheOp → Nat
  | .write uid _ _ _ => uid
  | .inval uid => uid

/-- Execute one interleaved operation through the embedded cache functions
(a failed write leaves the store unchanged; irrelevant when the failure flags
are off). -/
def runOp (s : RedisState) : CacheOp → RedisState
  | .write uid d ttl t =>
      match cache_user s uid d ttl t with
      | .ok s' => s'
      | .error _ => s
  | .inval uid => delete_user_cache s uid

/-- Execute a sequence of interleaved operations left to right. -/
def runOps (s : RedisState) (ops : List CacheOp) : RedisState :=
  ops.foldl runOp s

/-! ### Spec-side definitions (for refinement comparison) -/

/-- The specification's normalization rule, stated in its own words: replace
the birthday's year by the current year keeping month and day, except that
Feb 29 in a non-leap current year becomes March 1 of the current year. -/
def specNormalize (today bday : PyDate) : PyDate :=
  if bday.month = 2 ∧ bday.day = 29 ∧ isLeap today.year = false
  then ⟨today.year, 3, 1⟩
  else ⟨today.year, bday.month, bday.day⟩

/-- The decimal digit characters of `n`, most significant first (proof-side
reformulation of `Nat.toDigits 10`). -/
def decChars (n : Nat) : List Char :=
  ((Nat.digits 10 n).map Nat.digitChar).reverse

instance {ε α : Type} [DecidableEq ε] [DecidableEq α] : DecidableEq (Except ε α) :=
  fun x y =>
    match x, y with
    | .ok a, .ok b =>
        if h : a = b then .isTrue (by rw [h])
        else .isFalse (by intro hc; cases hc; exact h rfl)
    | .error a, .error b =>
        if h : a = b then .isTrue (by rw [h])
        else .isFalse (by intro hc; cases hc; exact h rfl)
    | .ok _, .error _ => .isFalse (by intro hc; cases hc)
    | .error _, .ok _ => .isFalse (by intro hc; cases hc)

/-- Sample access token for user 1 (issued at clock 0), used by witnesses. -/
def tokU1 : JwtToken :=
  create_access_token defaultAuthConfig [("user_id", .vInt 1), ("email", .vStr "a@x.com")] none 0

/-- Sample access token for user 2 (issued at clock 0), used by witnesses. -/
def tokU2 : JwtToken :=
  create_access_token defaultAuthConfig [("user_id", .vInt 2), ("email", .vStr "b@x.com")] none 0

/-- Sample contact fixture owned by user 1, birthday June 12. -/
def cJun12 : Contact :=
  ⟨1, "John", "Doe", "c@x.com", "123", ⟨1990, 6, 12⟩, none, 1⟩

/-- Sample contact payload fixture. -/
def cdSample : ContactData :=
  ⟨"Jane", "Roe", "new@x.com", "456", ⟨1991, 2, 3⟩, some "n", some 99⟩

/-! ## Helper lemmas -/

theorem find?_eq_some_of_unique {α : Type} (p : α → Bool) (l : List α) (a : α)
    (ha : a ∈ l) (hpa : p a = true) (huniq : ∀ x ∈ l, p x = true → x = a) :
    l.find? p = some a := by
  induction l with
  | nil => cases ha
  | cons b t ih =>
    by_cases hb : p b = true
    · have hba : b = a := huniq b (List.mem_cons_self b t) hb
      rw [List.find?_cons_of_pos _ hb, hba]
    · rw [List.find?_cons_of_neg _ hb]
      rcases List.mem_cons.mp ha with rfl | hat
      · exact absurd hpa hb
      · exact ih hat (fun x hx hp => huniq x (List.mem_cons_of_mem _ hx) hp)

theorem toDigitsCore_eq_decChars (f : Nat) :
    ∀ (n : Nat) (l : List Char), 0 < n → n < f →
      Nat.toDigitsCore 10 f n l = decChars n ++ l := by
  induction f with
  | zero => intro n l hn hf; omega
  | succ f ih =>
    intro n l hn hf
    rw [Nat.toDigitsCore]
    by_cases hdiv : n / 10 = 0
    · simp only [hdiv, reduceIte]
      have hdig : Nat.digits 10 n = [n % 10] := by
        rw [Nat.digits_def' (by norm_num) hn, hdiv, Nat.digits_zero]
      simp [decChars, hdig]
    · simp only [hdiv, reduceIte]
      have h1 : 0 < n / 10 := Nat.pos_of_ne_zero hdiv
      have h2 : n / 10 < f := by
        have := Nat.div_lt_self hn (by norm_num : 1 < 10)
        omega
      rw [ih (n / 10) _ h1 h2]
      have hdig : Nat.digits 10 n = n % 10 :: Nat.digits 10 (n / 10) :=
        Nat.digits_def' (by norm_num) hn
      simp [decChars, hdig]

theorem repr_eq_decChars (n : Nat) (hn : 0 < n) :
    Nat.repr n = (decChars n).asString := by
  rw [Nat.repr, Nat.toDigits, toDigitsCore_eq_decChars (n + 1) n [] hn (by omega)]
  simp

theorem digitChar_inj_lt (a b : Nat) (ha : a < 10) (hb : b < 10)
    (h : Nat.digitChar a = Nat.digitChar b) : a = b := by
  interval_cases a <;> interval_cases b <;> simp_all [Nat.digitChar]

theorem map_digitChar_inj : ∀ (l₁ l₂ : List Nat),
    (∀ x ∈ l₁, x < 10) → (∀ x ∈ l₂, x < 10) →
    l₁.map Nat.digitChar = l₂.map Nat.digitChar → l₁ = l₂ := by
  intro l₁
  induction l₁ with
  | nil => intro l₂ _ _ h; cases l₂ <;> simp_all
  | cons a t ih =>
    intro l₂ h1 h2 h
    cases l₂ with
    | nil => simp_all
    | cons b t' =>
      simp only [List.map_cons, List.cons.injEq] at h
      have hab := digitChar_inj_lt a b (h1 a (by simp)) (h2 b (by simp)) h.1
      have := ih t' (fun x hx => h1 x (by simp [hx])) (fun x hx => h2 x (by simp [hx])) h.2
      simp [hab, this]

theorem decChars_inj (n m : Nat) (h : decChars n = decChars m) : n = m := by
  have hd : Nat.digits 10 n = Nat.digits 10 m := by
    have := List.reverse_injective h
    exact map_digitChar_inj _ _
      (fun x hx => Nat.digits_lt_base (by norm_num) hx)
      (fun x hx => Nat.digits_lt_base (by norm_num) hx)
      this
  calc n = Nat.ofDigits 10 (Nat.digits 10 n) := (Nat.ofDigits_digits 10 n).symm
    _ = Nat.ofDigits 10 (Nat.digits 10 m) := by rw [hd]
    _ = m := Nat.ofDigits_digits 10 m

theorem repr_ne_zero_str (m : Nat) (hm : 0 < m) : Nat.repr m ≠ "0" := by
  rw [repr_eq_decChars m hm]
  intro hcontra
  have hdata : decChars m = ['0'] := by
    have := congrArg String.data hcontra
    simpa [List.asString] using this
  have hmap : (Nat.digits 10 m).map Nat.digitChar = ['0'] := by
    have := congrArg List.reverse hdata
    simpa [decChars] using this
  have hdig : Nat.digits 10 m = [0] := by
    have h0 : ([0] : List Nat).map Nat.digitChar = ['0'] := by
      simp [Nat.digitChar]
    exact map_digitChar_inj _ [0]
      (fun x hx => Nat.digits_lt_base (by norm_num) hx)
      (by intro x hx; simp at hx; omega)
      (by rw [hmap, h0])
  have : m = Nat.ofDigits 10 (Nat.digits 10 m) := (Nat.ofDigits_digits 10 m).symm
  rw [hdig] at this
  simp [Nat.ofDigits] at this
  omega

theorem nat_repr_injective (n m : Nat) (h : Nat.repr n = Nat.repr m) : n = m := by
  rcases Nat.eq_zero_or_pos n with hn | hn
  · rcases Nat.eq_zero_or_pos m with hm | hm
    · omega
    · subst hn
      exact absurd h.symm (repr_ne_zero_str m hm)
  · rcases Nat.eq_zero_or_pos m with hm | hm
    · subst hm
      exact absurd h (repr_ne_zero_str n hn)
    · apply decChars_inj
      rw [repr_eq_decChars n hn, repr_eq_decChars m hm] at h
      have := congrArg String.data h
      simpa [List.asString] using this

theorem userKey_injective (a b : Nat) (h : userKey a = userKey b) : a = b := by
  apply nat_repr_injective
  have := congrArg String.data h
  simp only [userKey, String.data_append] at this
  apply String.ext
  exact List.append_cancel_left this

/-- For a birthday that is a valid date in its own year, the in-code
normalization (`date(today.year, m, d)` with the `ValueError` fallback to
March 1) agrees with the specification's normalization rule. -/
theorem normalized_eq (today bday : PyDate)
    (hv : isValidDate bday.year bday.month bday.day = true) :
    (if isValidDate today.year bday.month bday.day
      then (⟨today.year, bday.month, bday.day⟩ : PyDate)
      else ⟨today.year, 3, 1⟩) = specNormalize today bday := by
  simp only [isValidDate, Bool.and_eq_true, decide_eq_true_eq] at hv
  obtain ⟨⟨⟨hm1, hm2⟩, hd1⟩, hd2⟩ := hv
  unfold specNormalize
  by_cases hfeb : bday.month = 2 ∧ bday.day = 29 ∧ isLeap today.year = false
  · obtain ⟨he2, he29, hlf⟩ := hfeb
    have hinv : isValidDate today.year 2 29 = false := by
      simp [isValidDate, daysInMonth, hlf]
    simp [he2, he29, hlf, hinv]
  · have hvalid : isValidDate today.year bday.month bday.day = true := by
      simp only [isValidDate, Bool.and_eq_true, decide_eq_true_eq]
      refine ⟨⟨⟨hm1, hm2⟩, hd1⟩, ?_⟩
      by_cases h2 : bday.month = 2
      · have hb : bday.day ≤ 29 := by
          simp only [daysInMonth, h2] at hd2
          by_cases hl : isLeap bday.year <;> simp [hl] at hd2 <;> omega
        rcases Nat.lt_or_ge bday.day 29 with hlt | hge
        · simp only [daysInMonth, h2]
          by_cases hl : isLeap today.year <;> simp [hl] <;> omega
        · have h29 : bday.day = 29 := by omega
          have hleap : isLeap today.year = true := by
            by_contra hc
            exact hfeb ⟨h2, h29, by simpa using hc⟩
          simp [daysInMonth, h2, hleap, h29]
      · have : daysInMonth today.year bday.month = daysInMonth bday.year bday.month := by
          simp [daysInMonth, h2]
        rw [this]; exact hd2
    simp [hvalid, hfeb]

/-- C1: for an acting user resolved from the token, a contact is in the
result of `get_upcoming_birthdays` iff it is an owned row of the table whose
birthday, normalized to the current year per the specification rule (month
and day preserved; Feb 29 in a non-leap current year becomes March 1), lies
in the inclusive window `[today, today + 7 days]`. -/
theorem upcoming_birthdays_window (cfg : AuthConfig) (now : Int)
    (db : List Contact) (today : PyDate) (tok : Option JwtToken) (uid : Int)
    (c : Contact)
    (htok : _get_user_id cfg now tok = .ok uid)
    (hbv : isValidDate c.birthday.year c.birthday.month c.birthday.day = true) :
    ∃ res, get_upcoming_birthdays cfg now db today tok = .ok res ∧
      (c ∈ res ↔ c ∈ db ∧ c.user_id = uid ∧
        dateLe today (specNormalize today c.birthday) = true ∧
        dateLe (specNormalize today c.birthday) (addDays today 7) = true) := by
  unfold get_upcoming_birthdays
  rw [htok]
  refine ⟨_, rfl, ?_⟩
  rw [List.mem_filter, List.mem_filter]
  have hnorm := normalized_eq today c.birthday hbv
  constructor
  · rintro ⟨⟨hdb, hown⟩, hup⟩
    simp only [is_upcoming, hnorm, Bool.and_eq_true] at hup
    exact ⟨hdb, by simpa using hown, hup.1, hup.2⟩
  · rintro ⟨hdb, hown, h1, h2⟩
    refine ⟨⟨hdb, by simpa using hown⟩, ?_⟩
    simp only [is_upcoming, hnorm, Bool.and_eq_true]
    exact ⟨h1, h2⟩

/-- Witness for C1 at the spec's own test vector: today = 2024-06-10 and a
contact with birthday month/day = 06-12 owned by the acting user. -/
theorem upcoming_birthdays_window_witness :
    ∃ res, get_upcoming_birthdays defaultAuthConfig 0 [cJun12] ⟨2024, 6, 10⟩
        (some tokU1) = .ok res ∧
      (cJun12 ∈ res ↔ cJun12 ∈ [cJun12] ∧ cJun12.user_id = 1 ∧
        dateLe ⟨2024, 6, 10⟩ (specNormalize ⟨2024, 6, 10⟩ cJun12.birthday) = true ∧
        dateLe (specNormalize ⟨2024, 6, 10⟩ cJun12.birthday)
          (addDays ⟨2024, 6, 10⟩ 7) = true) :=
  upcoming_birthdays_window defaultAuthConfig 0 [cJun12] ⟨2024, 6, 10⟩
    (some tokU1) 1 cJun12 (by decide) (by decide)

theorem getClaim_setClaim_same (cs : Claims) (k : String) (v : ClaimVal) :
    getClaim (setClaim cs k v) k = some v := by
  induction cs with
  | nil => simp [setClaim, getClaim, List.find?]
  | cons p rest ih =>
    by_cases h : p.1 = k
    · simp [setClaim, h, getClaim, List.find?]
    · simp only [setClaim, if_neg h]
      simpa [getClaim, List.find?, h] using ih

theorem getClaim_setClaim_ne (cs : Claims) (k : String) (v : ClaimVal)
    (k' : String) (h : k' ≠ k) :
    getClaim (setClaim cs k v) k' = getClaim cs k' := by
  have hkk : k ≠ k' := fun hc => h hc.symm
  induction cs with
  | nil => simp [setClaim, getClaim, List.find?, hkk]
  | cons p rest ih =>
    by_cases hp : p.1 = k
    · subst hp
      simp [setClaim, getClaim, List.find?, hkk]
    · simp only [setClaim, if_neg hp]
      by_cases hp' : p.1 = k'
      · simp [getClaim, List.find?, hp']
      · simpa [getClaim, List.find?, hp'] using ih

/-- C5: decoding a freshly issued token under the signing key succeeds and
yields exactly the issued claims with the absolute expiry `now + ttl` set;
every claim other than `exp` is returned unchanged. -/
theorem token_roundtrip (data : Claims) (key : String) (ttl now : Int)
    (h : 0 < ttl) :
    jwtDecode (jwtEncode data key (some ttl) now) key now =
      some (setClaim data "exp" (.vInt (now + ttl))) ∧
    ∀ k, k ≠ "exp" →
      getClaim (setClaim data "exp" (.vInt (now + ttl))) k = getClaim data k := by
  constructor
  · have hexp : expOk (setClaim data "exp" (.vInt (now + ttl))) now = true := by
      unfold expOk
      rw [getClaim_setClaim_same]
      simp only [decide_eq_true_eq]
      omega
    simp [jwtDecode, jwtEncode, hexp]
  · intro k hk
    exact getClaim_setClaim_ne data "exp" _ k hk

/-- Witness for C5 at a concrete claims set, key and ttl. -/
theorem token_roundtrip_witness :
    jwtDecode (jwtEncode [("user_id", .vInt 1)] "k" (some 60) 0) "k" 0 =
      some (setClaim [("user_id", .vInt 1)] "exp" (.vInt (0 + 60))) ∧
    ∀ k, k ≠ "exp" →
      getClaim (setClaim [("user_id", .vInt 1)] "exp" (.vInt (0 + 60))) k =
        getClaim [("user_id", .vInt 1)] k :=
  token_roundtrip [("user_id", .vInt 1)] "k" 60 0 (by decide)

/-- C3 counterexample: under the default configuration (all three signing
keys coincide), an unexpired access token is accepted by the reset-token
verifier, and a reset token is accepted by the access-token path that
resolves the acting user — cross-purpose tokens are accepted. -/
theorem cross_purpose_tokens_accepted :
    verify_reset_token defaultAuthConfig tokU1 0 = some (.vInt 1) ∧
    _get_user_id defaultAuthConfig 0
      (some (create_reset_token defaultAuthConfig 5 none 0)) = .ok 5 :=
  ⟨by decide, by decide⟩

/-- C3 amended: when the reset signing key differs from the access signing
key, cross-purpose verification fails — a freshly issued access token is
rejected by the reset verifier and a reset token is rejected by the access
decoder, at any clock. -/
theorem token_purpose_separation (cfg : AuthConfig) (data : Claims)
    (d1 d2 : Option Int) (n1 n2 n3 n4 uid : Int)
    (hk : cfg.RESET_SECRET_KEY ≠ cfg.SECRET_KEY) :
    verify_reset_token cfg (create_access_token cfg data d1 n1) n2 = none ∧
    decode_access_token cfg (create_reset_token cfg uid d2 n3) n4 = none := by
  constructor
  · simp [verify_reset_token, create_access_token, jwtEncode, jwtDecode, Ne.symm hk]
  · simp [decode_access_token, create_reset_token, jwtEncode, jwtDecode, hk]

/-- Witness for C3's amended statement with distinct keys. -/
theorem token_purpose_separation_witness :
    verify_reset_token ⟨"secret", "secret", "resetsecret"⟩
      (create_access_token ⟨"secret", "secret", "resetsecret"⟩
        [("user_id", .vInt 1)] none 0) 0 = none ∧
    decode_access_token ⟨"secret", "secret", "resetsecret"⟩
      (create_reset_token ⟨"secret", "secret", "resetsecret"⟩ 1 none 0) 0 = none :=
  token_purpose_separation ⟨"secret", "secret", "resetsecret"⟩
    [("user_id", .vInt 1)] none none 0 0 0 0 1 (by decide)

/-- C2 counterexample: a failing cache store makes `cache_user` raise — the
write-path failure propagates to the caller instead of being swallowed. -/
theorem cache_write_failure_propagates :
    cache_user ⟨[], false, true, false⟩ 1 [("id", .vInt 1)] 1800 0 = .error .err := rfl

/-- C2 amended: only cache-deletion failures are swallowed
(`delete_user_cache` leaves the store unchanged and raises nothing), while a
failing store makes both the cache write (`cache_user`) and the cache read
(`get_cached_user`) propagate the `RedisError` to the caller. -/
theorem cache_failure_policy (s : RedisState) (uid : Nat) (d : UserData)
    (ttl now : Nat)
    (hD : s.failDel = true) (hS : s.failSet = true) (hG : s.failGet = true) :
    delete_user_cache s uid = s ∧
    cache_user s uid d ttl now = .error .err ∧
    get_cached_user s uid now = .error .err := by
  refine ⟨?_, ?_, ?_⟩
  · simp [delete_user_cache, rDel, hD]
  · simp [cache_user, rSetex, hS]
  · simp [get_cached_user, rGet, hG]

/-- Witness for C2's amended statement on a concrete all-failing store. -/
theorem cache_failure_policy_witness :
    delete_user_cache ⟨[], true, true, true⟩ 1 = ⟨[], true, true, true⟩ ∧
    cache_user ⟨[], true, true, true⟩ 1 [("id", .vInt 1)] 1800 0 = .error .err ∧
    get_cached_user ⟨[], true, true, true⟩ 1 0 = .error .err :=
  cache_failure_policy ⟨[], true, true, true⟩ 1 [("id", .vInt 1)] 1800 0 rfl rfl rfl

theorem find?_filter_self {β : Type} (l : List (String × β)) (k : String) :
    (l.filter (fun e => !(decide (e.1 = k)))).find? (fun e => decide (e.1 = k)) = none := by
  rw [List.find?_eq_none]
  intro x hx
  rw [List.mem_filter] at hx
  simpa using hx.2

theorem find?_filter_ne {β : Type} (l : List (String × β)) (k k' : String)
    (h : k ≠ k') :
    (l.filter (fun e => !(decide (e.1 = k')))).find? (fun e => decide (e.1 = k)) =
      l.find? (fun e => decide (e.1 = k)) := by
  induction l with
  | nil => rfl
  | cons e t ih =>
    by_cases he' : e.1 = k'
    · have hek : e.1 ≠ k := fun hc => h (hc ▸ he')
      rw [List.filter_cons, if_neg (by simp [he']), ih, List.find?_cons]
      simp [hek]
    · rw [List.filter_cons, if_pos (by simp [he']), List.find?_cons, List.find?_cons]
      by_cases hek : e.1 = k
      · simp [hek]
      · simp [hek, ih]

theorem cache_user_ok (s : RedisState) (uid : Nat) (d : UserData) (ttl t : Nat)
    (hS : s.failSet = false) :
    cache_user s uid d ttl t = .ok (storePut s (userKey uid) (t + ttl) (.ser d)) := by
  simp [cache_user, rSetex, hS]

theorem delete_user_cache_ok (s : RedisState) (uid : Nat)
    (hD : s.failDel = false) :
    delete_user_cache s uid = storeDrop s (userKey uid) := by
  simp [delete_user_cache, rDel, hD]

theorem runOp_flags (s : RedisState) (op : CacheOp) :
    (runOp s op).failGet = s.failGet ∧ (runOp s op).failSet = s.failSet ∧
      (runOp s op).failDel = s.failDel := by
  cases op with
  | write uid d ttl t =>
      by_cases hS : s.failSet <;> simp [runOp, cache_user, rSetex, storePut, hS]
  | inval uid =>
      by_cases hD : s.failDel <;> simp [runOp, delete_user_cache, rDel, storeDrop, hD]

theorem runOp_preserves_key (s : RedisState) (op : CacheOp) (uid : Nat)
    (h : opUid op ≠ uid) :
    (runOp s op).entries.find? (fun e => decide (e.1 = userKey uid)) =
      s.entries.find? (fun e => decide (e.1 = userKey uid)) := by
  cases op with
  | write uid' d ttl t =>
    have hkey : userKey uid ≠ userKey uid' :=
      fun hc => h (userKey_injective uid' uid hc.symm)
    by_cases hS : s.failSet
    · simp [runOp, cache_user, rSetex, hS]
    · simp only [runOp, cache_user, rSetex, hS, Bool.false_eq_true, if_false, storePut]
      rw [List.find?_cons]
      have hne : decide (userKey uid' = userKey uid) = false := by
        simp only [decide_eq_false_iff_not]
        exact fun hc => hkey hc.symm
      rw [hne]
      exact find?_filter_ne s.entries (userKey uid) (userKey uid') hkey
  | inval uid' =>
    have hkey : userKey uid ≠ userKey uid' :=
      fun hc => h (userKey_injective uid' uid hc.symm)
    by_cases hD : s.failDel
    · simp [runOp, delete_user_cache, rDel, hD]
    · simp only [runOp, delete_user_cache, rDel, hD, Bool.false_eq_true, if_false, storeDrop]
      exact find?_filter_ne s.entries (userKey uid) (userKey uid') hkey

theorem runOps_preserves_key (ops : List CacheOp) :
    ∀ (s : RedisState) (uid : Nat), (∀ op ∈ ops, opUid op ≠ uid) →
    (runOps s ops).entries.find? (fun e => decide (e.1 = userKey uid)) =
      s.entries.find? (fun e => decide (e.1 = userKey uid)) := by
  induction ops with
  | nil => intro s uid _; rfl
  | cons op rest ih =>
    intro s uid h
    have h1 : opUid op ≠ uid := h op (List.mem_cons_self op rest)
    have h2 : ∀ o ∈ rest, opUid o ≠ uid :=
      fun o ho => h o (List.mem_cons_of_mem _ ho)
    show (runOps (runOp s op) rest).entries.find? _ = _
    rw [ih (runOp s op) uid h2, runOp_preserves_key s op uid h1]

theorem runOps_failGet (ops : List CacheOp) :
    ∀ s : RedisState, (runOps s ops).failGet = s.failGet := by
  induction ops with
  | nil => intro s; rfl
  | cons op rest ih =>
    intro s
    show (runOps (runOp s op) rest).failGet = s.failGet
    rw [ih (runOp s op), (runOp_flags s op).1]

/-- C6: cache-aside consistency. After `cache_user(uid, d, ttl)` at time `t`,
and any interleaved cache operations that do not target `uid`, a read of
`uid` returns exactly `d` while the ttl has not elapsed and a miss once it
has; after `delete_user_cache(uid)`, a read of `uid` returns a miss until the
next write to `uid`. -/
theorem cache_aside_consistency (s : RedisState) (uid : Nat) (d : UserData)
    (ttl t now : Nat) (post : List CacheOp)
    (hS : s.failSet = false) (hG : s.failGet = false) (hD : s.failDel = false)
    (hpost : ∀ op ∈ post, opUid op ≠ uid) :
    (∀ s1, cache_user s uid d ttl t = .ok s1 →
      get_cached_user (runOps s1 post) uid now =
        .ok (if now < t + ttl then some d else none)) ∧
    get_cached_user (runOps (delete_user_cache s uid) post) uid now = .ok none := by
  constructor
  · intro s1 hw
    rw [cache_user_ok s uid d ttl t hS] at hw
    injection hw with hs1
    rw [← hs1]
    have hfind : (runOps (storePut s (userKey uid) (t + ttl) (.ser d)) post).entries.find?
        (fun e => decide (e.1 = userKey uid)) =
          some (userKey uid, t + ttl, .ser d) := by
      rw [runOps_preserves_key post _ uid hpost]
      simp [storePut]
    have hflag : (runOps (storePut s (userKey uid) (t + ttl) (.ser d)) post).failGet = false := by
      rw [runOps_failGet post _]
      exact hG
    by_cases hlt : now < t + ttl <;>
      simp [get_cached_user, rGet, hflag, hfind, hlt]
  · rw [delete_user_cache_ok s uid hD]
    have hfind : (runOps (storeDrop s (userKey uid)) post).entries.find?
        (fun e => decide (e.1 = userKey uid)) = none := by
      rw [runOps_preserves_key post _ uid hpost]
      exact find?_filter_self s.entries (userKey uid)
    have hflag : (runOps (storeDrop s (userKey uid)) post).failGet = false := by
      rw [runOps_failGet post _]
      exact hG
    simp [get_cached_user, rGet, hflag, hfind]

/-- Witness for C6 on a concrete store, write, interleaved operations on
other user ids, and read clock inside the ttl. -/
theorem cache_aside_consistency_witness :
    (∀ s1, cache_user ⟨[], false, false, false⟩ 1 [("id", .vInt 1)] 1800 0 = .ok s1 →
      get_cached_user (runOps s1 [.write 2 [] 5 3, .inval 3]) 1 10 =
        .ok (if 10 < 0 + 1800 then some [("id", .vInt 1)] else none)) ∧
    get_cached_user
      (runOps (delete_user_cache ⟨[], false, false, false⟩ 1)
        [.write 2 [] 5 3, .inval 3]) 1 10 = .ok none :=
  cache_aside_consistency ⟨[], false, false, false⟩ 1 [("id", .vInt 1)] 1800 0 10
    [.write 2 [] 5 3, .inval 3] rfl rfl rfl (by decide)

/-- C4: a contact owned by user A is invisible to a requester resolved to a
different user id B: `get`, `update` and `delete` on its id raise the same
404 as a nonexistent id does, and the contact appears in no `list` or
`search` result of B (every query filters on the requester's resolved id). -/
theorem contact_ownership_isolation (cfg : AuthConfig) (now : Int)
    (db : List Contact) (c : Contact) (tok : Option JwtToken) (uidB : Int)
    (skip limit : Nat) (q : String) (upd : ContactData) (freshId : Int)
    (hc : c ∈ db) (hB : _get_user_id cfg now tok = .ok uidB)
    (hne : c.user_id ≠ uidB)
    (huniq : ∀ c' ∈ db, c'.id = c.id → c' = c)
    (hfresh : ∀ c' ∈ db, c'.id ≠ freshId) :
    get_contact cfg now db c.id tok = .error ⟨404, "Contact not found"⟩ ∧
    get_contact cfg now db freshId tok = get_contact cfg now db c.id tok ∧
    update_contact cfg now db c.id upd tok = .error ⟨404, "Contact not found"⟩ ∧
    delete_contact cfg now db c.id tok = .error ⟨404, "Contact not found"⟩ ∧
    (∃ l, get_contacts cfg now db skip limit tok = .ok l ∧ c ∉ l) ∧
    (∃ l, search_contacts cfg now db q tok = .ok l ∧ c ∉ l) := by
  have hfind : db.find?
      (fun c' => decide (c'.id = c.id) && decide (c'.user_id = uidB)) = none := by
    rw [List.find?_eq_none]
    intro x hx
    simp only [Bool.and_eq_true, decide_eq_true_eq, not_and]
    intro hid
    rw [huniq x hx hid]
    exact hne
  have hfind2 : db.find?
      (fun c' => decide (c'.id = freshId) && decide (c'.user_id = uidB)) = none := by
    rw [List.find?_eq_none]
    intro x hx
    simp only [Bool.and_eq_true, decide_eq_true_eq, not_and]
    intro hid
    exact absurd hid (hfresh x hx)
  refine ⟨?_, ?_, ?_, ?_, ?_, ?_⟩
  · simp [get_contact, hB, hfind]
  · simp [get_contact, hB, hfind, hfind2]
  · simp [update_contact, hB, hfind]
  · simp [delete_contact, hB, hfind]
  · refine ⟨((db.filter (fun x => decide (x.user_id = uidB))).drop skip).take limit,
      by simp [get_contacts, hB], ?_⟩
    intro hmem
    have h1 := List.mem_of_mem_take hmem
    have h2 := List.mem_of_mem_drop h1
    rw [List.mem_filter] at h2
    exact hne (by simpa using h2.2)
  · refine ⟨db.filter (fun x => decide (x.user_id = uidB) && searchMatch q x),
      by simp [search_contacts, hB], ?_⟩
    intro hmem
    rw [List.mem_filter] at hmem
    have hx := hmem.2
    simp only [Bool.and_eq_true, decide_eq_true_eq] at hx
    exact hne hx.1

/-- Witness for C4: a contact owned by user 1 accessed with user 2's token. -/
theorem contact_ownership_isolation_witness :
    get_contact defaultAuthConfig 0 [cJun12] cJun12.id (some tokU2) =
      .error ⟨404, "Contact not found"⟩ ∧
    get_contact defaultAuthConfig 0 [cJun12] 99 (some tokU2) =
      get_contact defaultAuthConfig 0 [cJun12] cJun12.id (some tokU2) ∧
    update_contact defaultAuthConfig 0 [cJun12] cJun12.id cdSample (some tokU2) =
      .error ⟨404, "Contact not found"⟩ ∧
    delete_contact defaultAuthConfig 0 [cJun12] cJun12.id (some tokU2) =
      .error ⟨404, "Contact not found"⟩ ∧
    (∃ l, get_contacts defaultAuthConfig 0 [cJun12] 0 100 (some tokU2) = .ok l ∧
      cJun12 ∉ l) ∧
    (∃ l, search_contacts defaultAuthConfig 0 [cJun12] "jo" (some tokU2) = .ok l ∧
      cJun12 ∉ l) :=
  contact_ownership_isolation defaultAuthConfig 0 [cJun12] cJun12 (some tokU2) 2
    0 100 "jo" cdSample 99 (by decide) (by decide) (by decide) (by decide) (by decide)

/-- C7: registration raises the email 409 whenever the email is taken
(independently of the username — checked first), raises the username 409 when
only the username is taken, and otherwise inserts a user record that stores
`bhash(password)` and not the plaintext. -/
theorem register_conflict_and_hash (bhash : String → String) (db : List User)
    (newId : Int) (u : UserCreate) :
    ((∃ v ∈ db, v.email = u.email) →
      create_user bhash db newId u = .error ⟨409, "Email already registered"⟩) ∧
    ((∀ v ∈ db, v.email ≠ u.email) → (∃ v ∈ db, v.username = u.username) →
      create_user bhash db newId u = .error ⟨409, "Username already taken"⟩) ∧
    ((∀ v ∈ db, v.email ≠ u.email) → (∀ v ∈ db, v.username ≠ u.username) →
      ∃ nu, create_user bhash db newId u = .ok (db ++ [nu], nu) ∧
        nu.hashed_password = bhash u.password ∧
        nu.username = u.username ∧ nu.email = u.email ∧ nu.id = newId ∧
        nu.role = "user" ∧ nu.is_verified = false ∧
        (bhash u.password ≠ u.password → nu.hashed_password ≠ u.password)) := by
  refine ⟨?_, ?_, ?_⟩
  · rintro ⟨v, hv, hve⟩
    have : (db.find? (fun x => decide (x.email = u.email))).isSome = true := by
      rw [List.find?_isSome]
      exact ⟨v, hv, by simpa using hve⟩
    simp [create_user, this]
  · intro hmail hexists
    have hnone : db.find? (fun x => decide (x.email = u.email)) = none := by
      rw [List.find?_eq_none]
      intro x hx
      simpa using hmail x hx
    obtain ⟨v, hv, hvu⟩ := hexists
    have hsome : (db.find? (fun x => decide (x.username = u.username))).isSome = true := by
      rw [List.find?_isSome]
      exact ⟨v, hv, by simpa using hvu⟩
    simp [create_user, hnone, hsome]
  · intro hmail huser
    have hnone : db.find? (fun x => decide (x.email = u.email)) = none := by
      rw [List.find?_eq_none]
      intro x hx
      simpa using hmail x hx
    have hnone2 : db.find? (fun x => decide (x.username = u.username)) = none := by
      rw [List.find?_eq_none]
      intro x hx
      simpa using huser x hx
    refine ⟨⟨newId, u.username, u.email, bhash u.password, true, false, none, "user"⟩,
      ?_, rfl, rfl, rfl, rfl, rfl, rfl, fun h => h⟩
    simp [create_user, hnone, hnone2]

/-- Witness for C7 on a one-user table and a colliding email. -/
theorem register_conflict_and_hash_witness :
    ((∃ v ∈ [(⟨1, "alice", "a@x.com", "h", true, false, none, "user"⟩ : User)],
        v.email = "a@x.com") →
      create_user (fun p => "hash:" ++ p)
        [⟨1, "alice", "a@x.com", "h", true, false, none, "user"⟩] 2
        ⟨"bob", "a@x.com", "pw"⟩ = .error ⟨409, "Email already registered"⟩) ∧
    ((∀ v ∈ [(⟨1, "alice", "a@x.com", "h", true, false, none, "user"⟩ : User)],
        v.email ≠ "a@x.com") →
      (∃ v ∈ [(⟨1, "alice", "a@x.com", "h", true, false, none, "user"⟩ : User)],
        v.username = "bob") →
      create_user (fun p => "hash:" ++ p)
        [⟨1, "alice", "a@x.com", "h", true, false, none, "user"⟩] 2
        ⟨"bob", "a@x.com", "pw"⟩ = .error ⟨409, "Username already taken"⟩) ∧
    ((∀ v ∈ [(⟨1, "alice", "a@x.com", "h", true, false, none, "user"⟩ : User)],
        v.email ≠ "a@x.com") →
      (∀ v ∈ [(⟨1, "alice", "a@x.com", "h", true, false, none, "user"⟩ : User)],
        v.username ≠ "bob") →
      ∃ nu, create_user (fun p => "hash:" ++ p)
          [⟨1, "alice", "a@x.com", "h", true, false, none, "user"⟩] 2
          ⟨"bob", "a@x.com", "pw"⟩ = .ok
            ([⟨1, "alice", "a@x.com", "h", true, false, none, "user"⟩] ++ [nu], nu) ∧
        nu.hashed_password = (fun p => "hash:" ++ p) "pw" ∧
        nu.username = "bob" ∧ nu.email = "a@x.com" ∧ nu.id = 2 ∧
        nu.role = "user" ∧ nu.is_verified = false ∧
        ((fun p => "hash:" ++ p) "pw" ≠ "pw" → nu.hashed_password ≠ "pw")) :=
  register_conflict_and_hash (fun p => "hash:" ++ p)
    [⟨1, "alice", "a@x.com", "h", true, false, none, "user"⟩] 2 ⟨"bob", "a@x.com", "pw"⟩

/-- C8: contact creation (with a validly resolved requester) raises 409
exactly when some row of the whole contacts table — any owner — already has
the requested email; otherwise it appends a row owned by the requester
(ignoring the payload's own `user_id` field). -/
theorem create_contact_email_globally_unique (cfg : AuthConfig) (now : Int)
    (db : List Contact) (data : ContactData) (tok : Option JwtToken)
    (uid newId : Int)
    (htok : _get_user_id cfg now tok = .ok uid) :
    ((∃ c ∈ db, c.email = data.email) →
      create_contact cfg now db data tok newId =
        .error ⟨409, "Contact with this email already exists"⟩) ∧
    ((∀ c ∈ db, c.email ≠ data.email) →
      create_contact cfg now db data tok newId =
        .ok (db ++ [⟨newId, data.first_name, data.last_name, data.email,
            data.phone, data.birthday, data.extra, uid⟩],
          ⟨newId, data.first_name, data.last_name, data.email, data.phone,
            data.birthday, data.extra, uid⟩)) := by
  constructor
  · rintro ⟨c, hcdb, hce⟩
    have hsome : (db.find? (fun x => decide (x.email = data.email))).isSome = true := by
      rw [List.find?_isSome]
      exact ⟨c, hcdb, by simpa using hce⟩
    simp [create_contact, htok, hsome]
  · intro hmail
    have hnone : db.find? (fun x => decide (x.email = data.email)) = none := by
      rw [List.find?_eq_none]
      intro x hx
      simpa using hmail x hx
    simp [create_contact, htok, hnone]

/-- Witness for C8: creating over a table that already holds the email
(owned by a different user) conflicts; a fresh email succeeds. -/
theorem create_contact_email_globally_unique_witness :
    ((∃ c ∈ [cJun12], c.email = cJun12.email) →
      create_contact defaultAuthConfig 0 [cJun12]
          ⟨"A", "B", cJun12.email, "7", ⟨1990, 1, 1⟩, none, none⟩ (some tokU2) 5 =
        .error ⟨409, "Contact with this email already exists"⟩) ∧
    ((∀ c ∈ [cJun12], c.email ≠ cJun12.email) →
      create_contact defaultAuthConfig 0 [cJun12]
          ⟨"A", "B", cJun12.email, "7", ⟨1990, 1, 1⟩, none, none⟩ (some tokU2) 5 =
        .ok ([cJun12] ++ [⟨5, "A", "B", cJun12.email, "7", ⟨1990, 1, 1⟩, none, 2⟩],
          ⟨5, "A", "B", cJun12.email, "7", ⟨1990, 1, 1⟩, none, 2⟩)) :=
  create_contact_email_globally_unique defaultAuthConfig 0 [cJun12]
    ⟨"A", "B", cJun12.email, "7", ⟨1990, 1, 1⟩, none, none⟩ (some tokU2) 2 5
    (by decide)

/-- C9: a login with an unknown username and a login with a known username
but failing password verification produce the very same 401 outcome, and a
login whose username resolves and whose password verifies returns that
user. -/
theorem authenticate_uniform_failure (vrfy : String → String → Bool)
    (db : List User) (u1 p1 u2 p2 : String) (v2 : User)
    (h1 : ∀ v ∈ db, v.username ≠ u1)
    (h2 : db.find? (fun v => decide (v.username = u2)) = some v2)
    (hwrong : vrfy p2 v2.hashed_password = false) :
    authenticate_user vrfy db u1 p1 = .error ⟨401, "Invalid credentials"⟩ ∧
    authenticate_user vrfy db u2 p2 = .error ⟨401, "Invalid credentials"⟩ ∧
    authenticate_user vrfy db u1 p1 = authenticate_user vrfy db u2 p2 ∧
    (∀ u p v, db.find? (fun x => decide (x.username = u)) = some v →
      vrfy p v.hashed_password = true →
      authenticate_user vrfy db u p = .ok v) := by
  have hnone : db.find? (fun v => decide (v.username = u1)) = none := by
    rw [List.find?_eq_none]
    intro x hx
    simpa using h1 x hx
  have e1 : authenticate_user vrfy db u1 p1 = .error ⟨401, "Invalid credentials"⟩ := by
    simp [authenticate_user, hnone]
  have e2 : authenticate_user vrfy db u2 p2 = .error ⟨401, "Invalid credentials"⟩ := by
    simp [authenticate_user, h2, hwrong]
  refine ⟨e1, e2, by rw [e1, e2], ?_⟩
  intro u p v hfind hv
  simp [authenticate_user, hfind, hv]

/-- Witness for C9: both failing logins on a concrete table yield the
identical 401, and correct credentials log in. -/
theorem authenticate_uniform_failure_witness :
    authenticate_user (fun p h => decide (h = "hash:" ++ p))
        [⟨1, "alice", "a@x.com", "hash:pw", true, false, none, "user"⟩]
        "bob" "pw" = .error ⟨401, "Invalid credentials"⟩ ∧
    authenticate_user (fun p h => decide (h = "hash:" ++ p))
        [⟨1, "alice", "a@x.com", "hash:pw", true, false, none, "user"⟩]
        "alice" "bad" = .error ⟨401, "Invalid credentials"⟩ ∧
    authenticate_user (fun p h => decide (h = "hash:" ++ p))
        [⟨1, "alice", "a@x.com", "hash:pw", true, false, none, "user"⟩]
        "bob" "pw" =
      authenticate_user (fun p h => decide (h = "hash:" ++ p))
        [⟨1, "alice", "a@x.com", "hash:pw", true, false, none, "user"⟩]
        "alice" "bad" ∧
    (∀ u p v, List.find? (fun x => decide (x.username = u))
        [⟨1, "alice", "a@x.com", "hash:pw", true, false, none, "user"⟩] = some v →
      (fun p h => decide (h = "hash:" ++ p)) p v.hashed_password = true →
      authenticate_user (fun p h => decide (h = "hash:" ++ p))
        [⟨1, "alice", "a@x.com", "hash:pw", true, false, none, "user"⟩] u p = .ok v) :=
  authenticate_uniform_failure (fun p h => decide (h = "hash:" ++ p))
    [⟨1, "alice", "a@x.com", "hash:pw", true, false, none, "user"⟩]
    "bob" "pw" "alice" "bad"
    ⟨1, "alice", "a@x.com", "hash:pw", true, false, none, "user"⟩
    (by decide) (by decide) (by decide)

/-- C10: updating an owned contact returns a contact whose six mutable fields
take the supplied values while `id` and `user_id` are those of the original
row — in particular the owner can never change, whatever the payload's
`user_id` says. -/
theorem update_contact_frame (cfg : AuthConfig) (now : Int) (db : List Contact)
    (c : Contact) (upd : ContactData) (tok : Option JwtToken) (uid : Int)
    (htok : _get_user_id cfg now tok = .ok uid)
    (hc : c ∈ db) (hown : c.user_id = uid)
    (huniq : ∀ c' ∈ db, c'.id = c.id → c' = c) :
    ∃ c', update_contact cfg now db c.id upd tok =
        .ok (replaceFirst
          (fun x => decide (x.id = c.id) && decide (x.user_id = uid)) c' db, c') ∧
      c'.id = c.id ∧ c'.user_id = c.user_id ∧
      c'.first_name = upd.first_name ∧ c'.last_name = upd.last_name ∧
      c'.email = upd.email ∧ c'.phone = upd.phone ∧
      c'.birthday = upd.birthday ∧ c'.extra = upd.extra := by
  have hfind : db.find?
      (fun x => decide (x.id = c.id) && decide (x.user_id = uid)) = some c := by
    apply find?_eq_some_of_unique _ _ c hc
    · simp [hown]
    · intro x hx hpx
      simp only [Bool.and_eq_true, decide_eq_true_eq] at hpx
      exact huniq x hx hpx.1
  refine ⟨{ c with
      first_name := upd.first_name
      last_name := upd.last_name
      email := upd.email
      phone := upd.phone
      birthday := upd.birthday
      extra := upd.extra }, ?_, rfl, rfl, rfl, rfl, rfl, rfl, rfl, rfl⟩
  simp [update_contact, htok, hfind]

/-- Witness for C10 on a concrete owned contact and payload (whose `user_id`
field even names another user). -/
theorem update_contact_frame_witness :
    ∃ c', update_contact defaultAuthConfig 0 [cJun12] cJun12.id cdSample
        (some tokU1) =
        .ok (replaceFirst
          (fun x => decide (x.id = cJun12.id) && decide (x.user_id = 1)) c'
          [cJun12], c') ∧
      c'.id = cJun12.id ∧ c'.user_id = cJun12.user_id ∧
      c'.first_name = cdSample.first_name ∧ c'.last_name = cdSample.last_name ∧
      c'.email = cdSample.email ∧ c'.phone = cdSample.phone ∧
      c'.birthday = cdSample.birthday ∧ c'.extra = cdSample.extra :=
  update_contact_frame defaultAuthConfig 0 [cJun12] cJun12 cdSample
    (some tokU1) 1 (by decide) (by decide) (by decide) (by decide)

end HwApp
